import Mathlib

/-!
Shallow embedding of the indicator and report pipeline of `src/dashboard.py`
(an AI-powered stock dashboard).  Prices are embedded as exact rationals;
a pandas Series with possibly-missing (NaN) entries is embedded as values of
type `Option ℚ`, indexed positionally.  Float division by zero is modelled
explicitly: `x / 0` with `x > 0` is IEEE `+inf` and `0 / 0` is NaN, and the
few places where the python code meets these cases are translated by the
case analysis the floats perform there.
-/

namespace Stonks

/-- `data['Close'].diff()`: first entry NaN, then successive differences. -/
def diff (xs : List ℚ) : List (Option ℚ) :=
  match xs with
  | [] => []
  | _ :: tl => none :: List.zipWith (fun a b => some (a - b)) tl xs

/-- `delta.where(delta > 0, 0)`: keep positive deltas, everything else
(including the leading NaN, whose comparison with 0 is false) becomes 0. -/
def gains (xs : List ℚ) : List ℚ :=
  (diff xs).map (fun o => match o with
    | none => 0
    | some d => if 0 < d then d else 0)

/-- `-delta.where(delta < 0, 0)`: magnitude of negative deltas, everything
else (including the leading NaN) becomes 0. -/
def losses (xs : List ℚ) : List ℚ :=
  (diff xs).map (fun o => match o with
    | none => 0
    | some d => if d < 0 then -d else 0)

/-- The trailing window of width `w` ending at index `i` (inclusive),
i.e. the values at indices `i+1-w .. i`. -/
def windowAt (xs : List ℚ) (w i : ℕ) : List ℚ :=
  (xs.take (i + 1)).drop (i + 1 - w)

/-- `Series.rolling(window=w).mean()` at index `i`: NaN until the window is
full (pandas default `min_periods = window`), then the arithmetic mean of
the trailing `w` values. -/
def rollingMeanAt (w : ℕ) (xs : List ℚ) (i : ℕ) : Option ℚ :=
  if w ≤ i + 1 ∧ i < xs.length then
    some ((windowAt xs w i).sum / (w : ℚ))
  else none

/-- `Series.rolling(window=w).std()` squared, i.e. the rolling sample
variance (pandas default `ddof = 1`): NaN until the window is full, then
`Σ (x - mean)² / (w - 1)` over the trailing `w` values. -/
def rollingVarAt (w : ℕ) (xs : List ℚ) (i : ℕ) : Option ℚ :=
  if w ≤ i + 1 ∧ i < xs.length then
    let win := windowAt xs w i
    let m := win.sum / (w : ℚ)
    some (((win.map (fun x => (x - m) ^ 2)).sum) / ((w - 1 : ℕ) : ℚ))
  else none

/-- `Series.rolling(window=w).std()` at index `i`: the square root of the
rolling sample variance. -/
noncomputable def rollingStdAt (w : ℕ) (xs : List ℚ) (i : ℕ) : Option ℝ :=
  (rollingVarAt w xs i).map (fun v => Real.sqrt ((v : ℚ) : ℝ))

/-- `data['Close'].rolling(window=20).mean()`: the 20-day SMA overlay. -/
def smaAt (xs : List ℚ) (i : ℕ) : Option ℚ :=
  rollingMeanAt 20 xs i

/-- `rolling(window=14).mean()` of the gains series. -/
def avgGainAt (xs : List ℚ) (i : ℕ) : Option ℚ :=
  rollingMeanAt 14 (gains xs) i

/-- `rolling(window=14).mean()` of the losses series. -/
def avgLossAt (xs : List ℚ) (i : ℕ) : Option ℚ :=
  rollingMeanAt 14 (losses xs) i

/-- `calculate_rsi(data, window=14)` at index `i`:
`rs = gain / loss`, `rsi = 100 - 100 / (1 + rs)`.  In floats, when the
rolling loss is 0 and the rolling gain is positive, `rs = +inf` and the
result is `100`; when both are 0, `rs` is NaN and so is the result. -/
def calculate_rsi (xs : List ℚ) (i : ℕ) : Option ℚ :=
  match avgGainAt xs i, avgLossAt xs i with
  | some g, some l =>
      if l = 0 then
        if g = 0 then none else some 100
      else
        some (100 - 100 / (1 + g / l))
  | _, _ => none

/-- Recursive helper for the unadjusted exponential mean:
`y_t = (1 - a) * y_{t-1} + a * x_t`. -/
def ewmUnadjFrom (a y : ℚ) : List ℚ → List ℚ
  | [] => []
  | x :: xs =>
      let y2 := (1 - a) * y + a * x
      y2 :: ewmUnadjFrom a y2 xs

/-- `Series.ewm(span=s, adjust=False).mean()`: `y_0 = x_0`,
`y_t = (1 - α) y_{t-1} + α x_t` with `α = 2 / (s + 1)`. -/
def ewmUnadj (s : ℕ) (xs : List ℚ) : List ℚ :=
  match xs with
  | [] => []
  | x :: tl => x :: ewmUnadjFrom (2 / ((s : ℚ) + 1)) x tl

/-- `Series.ewm(span=s).mean()` (pandas default `adjust=True`) at index `i`:
the finitely-normalised weighted mean
`Σ_{j≤i} (1-α)^j x_{i-j} / Σ_{j≤i} (1-α)^j` with `α = 2 / (s + 1)`. -/
def ewmAdjAt (s : ℕ) (xs : List ℚ) (i : ℕ) : Option ℚ :=
  if i < xs.length then
    let a : ℚ := 2 / ((s : ℚ) + 1)
    some ((∑ j ∈ Finset.range (i + 1), (1 - a) ^ j * xs.getD (i - j) 0) /
          (∑ j ∈ Finset.range (i + 1), (1 - a) ^ j))
  else none

/-- `data['Close'].ewm(span=20).mean()`: the 20-day EMA overlay, which uses
the pandas default `adjust=True`. -/
def emaAt (xs : List ℚ) (i : ℕ) : Option ℚ :=
  ewmAdjAt 20 xs i

/-- `calculate_macd(data)`: `macd = ewm(12, adjust=False) - ewm(26,
adjust=False)` of Close, `signal = ewm(9, adjust=False)` of the macd line. -/
def calculate_macd (xs : List ℚ) : List ℚ × List ℚ :=
  let exp1 := ewmUnadj 12 xs
  let exp2 := ewmUnadj 26 xs
  let macd := List.zipWith (fun a b => a - b) exp1 exp2
  let signal := ewmUnadj 9 macd
  (macd, signal)

/-- Bollinger upper band `sma + 2 * std` at index `i` (window 20). -/
noncomputable def bbUpperAt (xs : List ℚ) (i : ℕ) : Option ℝ :=
  match smaAt xs i, rollingStdAt 20 xs i with
  | some m, some s => some ((m : ℝ) + 2 * s)
  | _, _ => none

/-- Bollinger lower band `sma - 2 * std` at index `i` (window 20). -/
noncomputable def bbLowerAt (xs : List ℚ) (i : ℕ) : Option ℝ :=
  match smaAt xs i, rollingStdAt 20 xs i with
  | some m, some s => some ((m : ℝ) - 2 * s)
  | _, _ => none

/-- Cumulative sum of `Close * Volume` up to index `i` inclusive
(`(data['Close'] * data['Volume']).cumsum()`). -/
def cumCV (close vol : List ℚ) (i : ℕ) : ℚ :=
  ((List.zipWith (· * ·) close vol).take (i + 1)).sum

/-- Cumulative sum of `Volume` up to index `i` inclusive
(`data['Volume'].cumsum()`). -/
def cumV (vol : List ℚ) (i : ℕ) : ℚ :=
  (vol.take (i + 1)).sum

/-- `data['VWAP'] = (Close * Volume).cumsum() / Volume.cumsum()` at index
`i`.  Float `0 / 0` is NaN; under the nonnegative volumes of market data a
zero cumulative volume forces a zero numerator, so the zero-denominator
case is embedded as the missing value. -/
def vwapAt (close vol : List ℚ) (i : ℕ) : Option ℚ :=
  if i < close.length ∧ i < vol.length then
    if cumV vol i = 0 then none
    else some (cumCV close vol i / cumV vol i)
  else none

/-- The RSI series materialised over the whole index
(`rsi = calculate_rsi(data)`). -/
def rsiSeries (xs : List ℚ) : List (Option ℚ) :=
  (List.range xs.length).map (calculate_rsi xs)

/-- `Series.tail(10)`: the last 10 rows (all rows when fewer exist). -/
def tail10 {α : Type} (l : List α) : List α :=
  l.drop (l.length - 10)

/-- Number of defined (non-NaN) points of an embedded series. -/
def definedCount (l : List (Option ℚ)) : ℕ :=
  (l.filterMap id).length

/-- Python `f"\x7bv:.2f\x7d"` on a rational: round to two decimal places and
render sign, integer part, and exactly two fractional digits. -/
def fmt2 (q : ℚ) : String :=
  let c : ℤ := round (q * 100)
  let m : ℕ := c.natAbs
  let frac : ℕ := m % 100
  (if c < 0 then "-" else "") ++ toString (m / 100) ++ "." ++
    (if frac < 10 then "0" else "") ++ toString frac

/-- Python `f"\x7bv:.2f\x7d"` on a possibly-NaN value: NaN renders as `nan`. -/
def fmtVal (v : Option ℚ) : String :=
  match v with
  | none => "nan"
  | some q => fmt2 q

/-- The formatted lines of the RSI block: one
`"\n" ++ date ++ ": " ++ value` line per row of `rsi.tail(10)`. -/
def rsiLines (dates : List String) (xs : List ℚ) : List String :=
  (tail10 (dates.zip (rsiSeries xs))).map
    (fun p => "\n" ++ p.1 ++ ": " ++ fmtVal p.2)

/-- The `rsi_data` string: header plus the formatted lines. -/
def rsi_data (dates : List String) (xs : List ℚ) : String :=
  "\nRecent RSI values:" ++ String.join (rsiLines dates xs)

/-- The formatted lines of the MACD block: one
`"\n" ++ date ++ ": MACD=" ++ m ++ ", Signal=" ++ s` line per row of the
tail-10 DataFrame of the macd and signal series. -/
def macdLines (dates : List String) (xs : List ℚ) : List String :=
  (tail10 (dates.zip ((calculate_macd xs).1.zip (calculate_macd xs).2))).map
    (fun p => "\n" ++ p.1 ++ ": MACD=" ++ fmt2 p.2.1 ++ ", Signal=" ++ fmt2 p.2.2)

/-- The `macd_data` string: header plus the formatted lines. -/
def macd_data (dates : List String) (xs : List ℚ) : String :=
  "\n\nRecent MACD values:" ++ String.join (macdLines dates xs)

/-- The assembled `tech_data` string: the RSI block when `"RSI"` is
selected, then the MACD block when `"MACD"` is selected. -/
def tech_data (sel : List String) (dates : List String) (xs : List ℚ) : String :=
  (if "RSI" ∈ sel then rsi_data dates xs else "") ++
  (if "MACD" ∈ sel then macd_data dates xs else "")

/-- The indicator choices of the multiselect. -/
inductive Indicator : Type
  | sma20
  | ema20
  | bb20
  | vwap
  | macd
  | rsi
  deriving DecidableEq

/-- The session-scoped stored data: the fetched OHLCV columns relevant to
the indicator engine, plus the `VWAP` column the VWAP branch writes. -/
structure SessionData : Type where
  close : List ℚ
  volume : List ℚ
  vwapCol : Option (List (Option ℚ))
  deriving DecidableEq

/-- The VWAP series materialised over the whole index. -/
def vwapSeries (close vol : List ℚ) : List (Option ℚ) :=
  (List.range close.length).map (vwapAt close vol)

/-- The effect of `add_indicator(indicator)` on the stored data: every
branch only reads `data`, except the VWAP branch, which writes the
`data['VWAP']` column. -/
def add_indicator (d : SessionData) : Indicator → SessionData
  | .vwap => { d with vwapCol := some (vwapSeries d.close d.volume) }
  | _ => d

/-- The series an indicator computes, as a function of the stored data
(pairs for the two-series indicators; the second component is unused for
single-series ones). -/
noncomputable def indicatorOutput (d : SessionData) :
    Indicator → (ℕ → Option ℝ) × (ℕ → Option ℝ)
  | .sma20 => (fun i => (smaAt d.close i).map (fun q => (q : ℝ)), fun _ => none)
  | .ema20 => (fun i => (emaAt d.close i).map (fun q => (q : ℝ)), fun _ => none)
  | .bb20 => (bbUpperAt d.close, bbLowerAt d.close)
  | .vwap => (fun i => (vwapAt d.close d.volume i).map (fun q => (q : ℝ)), fun _ => none)
  | .macd => (fun i => ((calculate_macd d.close).1.getD i 0 : ℝ),
              fun i => ((calculate_macd d.close).2.getD i 0 : ℝ))
  | .rsi => (fun i => (calculate_rsi d.close i).map (fun q => (q : ℝ)), fun _ => none)

/-- The fallible steps of the `Run AI Analysis` handler, between the
creation of the chart-image temporary file and the final `os.remove`. -/
inductive FailPoint : Type
  | noFailure
  | writeImage
  | readImage
  | chatCall
  deriving DecidableEq

/-- Observable outcome of one run of the `Run AI Analysis` handler. -/
structure HandlerOutcome : Type where
  tmpExists : Bool
  responded : Bool
  deriving DecidableEq

/-- The `Run AI Analysis` handler: the temporary file is created
(`delete=False`), the chart is exported into it, it is read back, the model
is called, the response is displayed, and only then is the file removed.
An exception raised at any step propagates (there is no try/finally), so
the steps after it — including the `os.remove` — do not run. -/
def runAnalysisHandler (fp : FailPoint) : Except HandlerOutcome HandlerOutcome :=
  let s : HandlerOutcome := { tmpExists := true, responded := false }
  if fp = .writeImage then .error s
  else if fp = .readImage then .error s
  else if fp = .chatCall then .error s
  else .ok { s with responded := true, tmpExists := false }

/-! ### Helper lemmas -/

theorem windowAt_eq_ofFn (xs : List ℚ) (w i : ℕ) (hw : w ≤ i + 1)
    (hi : i < xs.length) :
    windowAt xs w i = List.ofFn (fun j : Fin w => xs.getD (i + 1 - w + j) 0) := by
  apply List.ext_getElem
  · simp [windowAt]
    omega
  · intro j h1 h2
    have hj : j < w := by simpa using h2
    have hlt : i + 1 - w + j < xs.length := by omega
    simp only [windowAt, List.getElem_drop, List.getElem_take, List.getElem_ofFn]
    rw [List.getD_eq_getElem xs 0 hlt]

theorem rollingMeanAt_eq (w : ℕ) (xs : List ℚ) (i : ℕ) (hw : w ≤ i + 1)
    (hi : i < xs.length) :
    rollingMeanAt w xs i =
      some ((∑ j ∈ Finset.range w, xs.getD (i + 1 - w + j) 0) / (w : ℚ)) := by
  rw [rollingMeanAt, if_pos ⟨hw, hi⟩, windowAt_eq_ofFn xs w i hw hi,
    Fin.sum_ofFn, Finset.sum_range]

theorem gains_nonneg (xs : List ℚ) : ∀ x ∈ gains xs, 0 ≤ x := by
  intro x hx
  rcases List.mem_map.mp hx with ⟨o, _, rfl⟩
  cases o with
  | none => simp
  | some d =>
      dsimp only
      split
      · linarith
      · exact le_refl 0

theorem losses_nonneg (xs : List ℚ) : ∀ x ∈ losses xs, 0 ≤ x := by
  intro x hx
  rcases List.mem_map.mp hx with ⟨o, _, rfl⟩
  cases o with
  | none => simp
  | some d =>
      dsimp only
      split
      · linarith
      · exact le_refl 0

theorem mem_windowAt (xs : List ℚ) (w i : ℕ) {x : ℚ}
    (hx : x ∈ windowAt xs w i) : x ∈ xs :=
  List.mem_of_mem_take (List.mem_of_mem_drop hx)

theorem rollingMeanAt_nonneg (w : ℕ) (xs : List ℚ) (i : ℕ) (m : ℚ)
    (hpos : ∀ x ∈ xs, 0 ≤ x) (hm : rollingMeanAt w xs i = some m) : 0 ≤ m := by
  rw [rollingMeanAt] at hm
  split at hm
  · have hsum : 0 ≤ (windowAt xs w i).sum :=
      List.sum_nonneg (fun x hx => hpos x (mem_windowAt xs w i hx))
    have := Option.some.inj hm
    subst this
    exact div_nonneg hsum (by positivity)
  · cases hm

/-! ### C1: RSI at zero rolling loss -/

/-- C1.  At every index where the RSI series is defined, a zero 14-window
rolling average loss forces the RSI value to be 100 (the float evaluates
`100 - 100 / (1 + gain / 0)` with positive gain to `100`). -/
theorem C1_rsi_loss_zero (xs : List ℚ) (i : ℕ) (v : ℚ)
    (hv : calculate_rsi xs i = some v) (hl : avgLossAt xs i = some 0) :
    v = 100 := by
  rw [calculate_rsi, hl] at hv
  cases hg : avgGainAt xs i with
  | none => rw [hg] at hv; cases hv
  | some g =>
      rw [hg] at hv
      dsimp only at hv
      rw [if_pos rfl] at hv
      by_cases h0 : g = 0
      · rw [if_pos h0] at hv; cases hv
      · rw [if_neg h0] at hv
        exact (Option.some.inj hv).symm

/-- Witness for C1 at a strictly rising 15-point Close series. -/
theorem C1_rsi_loss_zero_witness : (100 : ℚ) = 100 :=
  C1_rsi_loss_zero [0, 1, 2, 3, 4, 5, 6, 7, 8, 9, 10, 11, 12, 13, 14] 13 100
    (by norm_num [calculate_rsi, avgGainAt, avgLossAt, rollingMeanAt, windowAt,
        gains, losses, diff])
    (by norm_num [avgLossAt, rollingMeanAt, windowAt, losses, diff])

/-! ### C3: the 20-day SMA -/

/-- C3.  The 20-day SMA at index `i ≥ 19` is the arithmetic mean of the
Close values at indices `i - 19 .. i`, and it is undefined at the first 19
indices. -/
theorem C3_sma_mean (xs : List ℚ) (i : ℕ) (hi : i < xs.length) :
    (19 ≤ i → smaAt xs i =
      some ((∑ j ∈ Finset.range 20, xs.getD (i - 19 + j) 0) / 20)) ∧
    (i < 19 → smaAt xs i = none) := by
  constructor
  · intro h19
    have h : i + 1 - 20 = i - 19 := by omega
    have he := rollingMeanAt_eq 20 xs i (by omega) hi
    rw [h] at he
    rw [smaAt, he]
    norm_num
  · intro h19
    have h : ¬(20 ≤ i + 1 ∧ i < xs.length) := by omega
    rw [smaAt, rollingMeanAt, if_neg h]

/-- Witness for C3 at the series `1, 2, …, 20` and index 19: the SMA is the
mean of all twenty values. -/
theorem C3_sma_mean_witness :
    smaAt [1, 2, 3, 4, 5, 6, 7, 8, 9, 10, 11, 12, 13, 14, 15, 16, 17, 18, 19, 20]
      19 =
    some ((∑ j ∈ Finset.range 20,
      ([1, 2, 3, 4, 5, 6, 7, 8, 9, 10, 11, 12, 13, 14, 15, 16, 17, 18, 19, 20] :
        List ℚ).getD (19 - 19 + j) 0) / 20) :=
  (C3_sma_mean _ 19 (by simp)).1 (by decide)

/-! ### C6: RSI is bounded in [0, 100] -/

/-- C6.  At every index where the RSI series is defined, its value lies in
the closed interval `[0, 100]`. -/
theorem C6_rsi_bounded (xs : List ℚ) (i : ℕ) (v : ℚ)
    (hv : calculate_rsi xs i = some v) : 0 ≤ v ∧ v ≤ 100 := by
  rw [calculate_rsi] at hv
  cases hg : avgGainAt xs i with
  | none => rw [hg] at hv; cases hv
  | some g =>
  cases hl : avgLossAt xs i with
  | none => rw [hg, hl] at hv; cases hv
  | some l =>
      rw [hg, hl] at hv
      rw [avgGainAt] at hg
      rw [avgLossAt] at hl
      have hg0 : 0 ≤ g := rollingMeanAt_nonneg 14 (gains xs) i g (gains_nonneg xs) hg
      have hl0 : 0 ≤ l := rollingMeanAt_nonneg 14 (losses xs) i l (losses_nonneg xs) hl
      dsimp only at hv
      by_cases h0 : l = 0
      · subst h0
        rw [if_pos rfl] at hv
        by_cases hgz : g = 0
        · rw [if_pos hgz] at hv; cases hv
        · rw [if_neg hgz] at hv
          obtain rfl : (100 : ℚ) = v := Option.some.inj hv
          norm_num
      · rw [if_neg h0] at hv
        obtain rfl : 100 - 100 / (1 + g / l) = v := Option.some.inj hv
        have hlpos : 0 < l := lt_of_le_of_ne hl0 (Ne.symm h0)
        have hrs : 0 ≤ g / l := div_nonneg hg0 hlpos.le
        have h1 : (1 : ℚ) ≤ 1 + g / l := by linarith
        have hle : 100 / (1 + g / l) ≤ 100 := div_le_self (by norm_num) h1
        have hge : 0 ≤ 100 / (1 + g / l) := div_nonneg (by norm_num) (by linarith)
        constructor <;> linarith

/-- Witness for C6 at a strictly rising 15-point Close series, where the
RSI is defined and equal to 100. -/
theorem C6_rsi_bounded_witness : 0 ≤ (100 : ℚ) ∧ (100 : ℚ) ≤ 100 :=
  C6_rsi_bounded [0, 1, 2, 3, 4, 5, 6, 7, 8, 9, 10, 11, 12, 13, 14] 13 100
    (by norm_num [calculate_rsi, avgGainAt, avgLossAt, rollingMeanAt, windowAt,
        gains, losses, diff])

/-! ### C8: indicators are pure; VWAP is the sole writer -/

theorem foldl_add_indicator_close_volume (d : SessionData) (l : List Indicator) :
    (l.foldl add_indicator d).close = d.close ∧
    (l.foldl add_indicator d).volume = d.volume := by
  induction l generalizing d with
  | nil => exact ⟨rfl, rfl⟩
  | cons hd tl ih =>
      rcases ih (add_indicator d hd) with ⟨h1, h2⟩
      refine ⟨h1.trans ?_, h2.trans ?_⟩ <;> cases hd <;> rfl

theorem indicatorOutput_congr (d₁ d₂ : SessionData) (hc : d₁.close = d₂.close)
    (hv : d₁.volume = d₂.volume) (ind : Indicator) :
    indicatorOutput d₁ ind = indicatorOutput d₂ ind := by
  cases ind <;> simp [indicatorOutput, hc, hv]

/-- C8.  Every `add_indicator` branch leaves the stored Close and Volume
series unchanged; every branch other than VWAP leaves the stored data
entirely unchanged, while the VWAP branch writes the `VWAP` column; and the
series any indicator computes is unaffected by which other indicators were
computed before it, in any order. -/
theorem C8_indicator_purity :
    (∀ (d : SessionData) (ind : Indicator),
      (add_indicator d ind).close = d.close ∧
      (add_indicator d ind).volume = d.volume) ∧
    (∀ (d : SessionData) (ind : Indicator), ind ≠ .vwap → add_indicator d ind = d) ∧
    (∀ d : SessionData,
      (add_indicator d .vwap).vwapCol = some (vwapSeries d.close d.volume)) ∧
    (∀ (d : SessionData) (l : List Indicator) (ind : Indicator),
      indicatorOutput (l.foldl add_indicator d) ind = indicatorOutput d ind) := by
  refine ⟨fun d ind => ?_, fun d ind h => ?_, fun d => rfl, fun d l ind => ?_⟩
  · cases ind <;> exact ⟨rfl, rfl⟩
  · cases ind
    case vwap => exact absurd rfl h
    all_goals rfl
  · rcases foldl_add_indicator_close_volume d l with ⟨h1, h2⟩
    exact indicatorOutput_congr _ _ h1 h2 ind

/-- Witness for C8: computing the SMA indicator on a tiny stored series
changes nothing. -/
theorem C8_indicator_purity_witness :
    add_indicator ⟨[1], [2], none⟩ .sma20 = ⟨[1], [2], none⟩ :=
  C8_indicator_purity.2.1 ⟨[1], [2], none⟩ .sma20 (by decide)

/-! ### C9: the chart-image temporary file -/

/-- C9.  The temporary chart-image file is removed exactly on the run that
completes the model call and the response display; a failure at any step
between the file's creation and the final `os.remove` — exporting the
image, reading it back, or the model call itself — aborts the handler with
the file still present. -/
theorem C9_tmpfile_orphaned_on_failure :
    runAnalysisHandler .noFailure = .ok ⟨false, true⟩ ∧
    runAnalysisHandler .writeImage = .error ⟨true, false⟩ ∧
    runAnalysisHandler .readImage = .error ⟨true, false⟩ ∧
    runAnalysisHandler .chatCall = .error ⟨true, false⟩ :=
  ⟨rfl, rfl, rfl, rfl⟩

/-! ### C10: two distinct exponential-mean definitions -/

/-- C10.  The 20-day EMA overlay is the adjusted (finite-weight normalised)
exponential mean, MACD and its signal line are built from the unadjusted
recursive form, and the two forms of equal span disagree already on the
two-point series `0, 1`. -/
theorem C10_two_ewm_forms :
    (∀ (xs : List ℚ) (i : ℕ), emaAt xs i = ewmAdjAt 20 xs i) ∧
    (∀ xs : List ℚ, calculate_macd xs =
      (List.zipWith (fun a b => a - b) (ewmUnadj 12 xs) (ewmUnadj 26 xs),
       ewmUnadj 9 (List.zipWith (fun a b => a - b) (ewmUnadj 12 xs) (ewmUnadj 26 xs)))) ∧
    (∃ xs : List ℚ, 2 ≤ xs.length ∧
      ∃ i : ℕ, ewmAdjAt 20 xs i ≠ some ((ewmUnadj 20 xs).getD i 0)) := by
  refine ⟨fun xs i => rfl, fun xs => rfl, [0, 1], by simp, 1, ?_⟩
  have h1 : ewmAdjAt 20 [0, 1] 1 = some (21 / 40) := by
    norm_num [ewmAdjAt, Finset.sum_range_succ]
  have h2 : ewmUnadj 20 [0, 1] = [0, 2 / 21] := by
    norm_num [ewmUnadj, ewmUnadjFrom]
  rw [h1, h2]
  norm_num

/-! ### C5: Bollinger band width -/

/-- C5.  Wherever the Bollinger bands are defined (index at least 19), the
upper band minus the lower band is four times the 20-window rolling
standard deviation; at the first 19 indices both bands are undefined. -/
theorem C5_bollinger_width (xs : List ℚ) (i : ℕ) (hi : i < xs.length) :
    (19 ≤ i → ∃ u l s : ℝ, bbUpperAt xs i = some u ∧ bbLowerAt xs i = some l ∧
      rollingStdAt 20 xs i = some s ∧ u - l = 4 * s) ∧
    (i < 19 → bbUpperAt xs i = none ∧ bbLowerAt xs i = none) := by
  constructor
  · intro h19
    have hc : 20 ≤ i + 1 ∧ i < xs.length := ⟨by omega, hi⟩
    obtain ⟨m, hm⟩ : ∃ m, smaAt xs i = some m := by
      rw [smaAt, rollingMeanAt, if_pos hc]; exact ⟨_, rfl⟩
    obtain ⟨v, hv⟩ : ∃ v, rollingVarAt 20 xs i = some v := by
      rw [rollingVarAt, if_pos hc]; exact ⟨_, rfl⟩
    refine ⟨(m : ℝ) + 2 * Real.sqrt v, (m : ℝ) - 2 * Real.sqrt v, Real.sqrt v,
      ?_, ?_, ?_, by ring⟩
    · simp [bbUpperAt, rollingStdAt, hm, hv]
    · simp [bbLowerAt, rollingStdAt, hm, hv]
    · simp [rollingStdAt, hv]
  · intro h19
    have hc : ¬(20 ≤ i + 1 ∧ i < xs.length) := by omega
    have hm : smaAt xs i = none := by rw [smaAt, rollingMeanAt, if_neg hc]
    constructor <;> simp [bbUpperAt, bbLowerAt, hm]

/-- Witness for C5 at a constant 20-point series and index 19. -/
theorem C5_bollinger_width_witness :
    ∃ u l s : ℝ, bbUpperAt (List.replicate 20 (100 : ℚ)) 19 = some u ∧
      bbLowerAt (List.replicate 20 (100 : ℚ)) 19 = some l ∧
      rollingStdAt 20 (List.replicate 20 (100 : ℚ)) 19 = some s ∧
      u - l = 4 * s :=
  (C5_bollinger_width (List.replicate 20 (100 : ℚ)) 19 (by simp)).1 (by decide)

/-! ### C4: the constant 30-row series -/

theorem zipWith_sub_replicate (c : ℚ) : ∀ m : ℕ,
    List.zipWith (fun a b => some (a - b)) (List.replicate m c)
        (List.replicate (m + 1) c) =
      List.replicate m (some (0 : ℚ))
  | 0 => rfl
  | k + 1 => by
      rw [List.replicate_succ, List.replicate_succ c (k + 1), List.zipWith_cons_cons,
        zipWith_sub_replicate c k, sub_self, List.replicate_succ]

theorem diff_replicate (n : ℕ) (c : ℚ) :
    diff (List.replicate n c) =
      match n with
      | 0 => []
      | m + 1 => none :: List.replicate m (some (0 : ℚ)) := by
  cases n with
  | zero => rfl
  | succ m =>
      rw [List.replicate_succ, diff]
      congr 1
      rw [← List.replicate_succ]
      exact zipWith_sub_replicate c m

theorem gains_replicate (n : ℕ) (c : ℚ) :
    gains (List.replicate n c) = List.replicate n 0 := by
  rw [gains, diff_replicate]
  cases n with
  | zero => rfl
  | succ m =>
      rw [List.replicate_succ]
      simp [List.map_replicate]

theorem losses_replicate (n : ℕ) (c : ℚ) :
    losses (List.replicate n c) = List.replicate n 0 := by
  rw [losses, diff_replicate]
  cases n with
  | zero => rfl
  | succ m =>
      rw [List.replicate_succ]
      simp [List.map_replicate]

theorem windowAt_replicate (n w i : ℕ) (c : ℚ) (hw : w ≤ i + 1) (hi : i < n) :
    windowAt (List.replicate n c) w i = List.replicate w c := by
  rw [windowAt, List.take_replicate, List.drop_replicate]
  congr 1
  omega

theorem rollingMeanAt_replicate (w n i : ℕ) (c : ℚ) (hw : w ≤ i + 1) (hi : i < n)
    (hw0 : 0 < w) :
    rollingMeanAt w (List.replicate n c) i = some c := by
  rw [rollingMeanAt, if_pos ⟨hw, by simpa using hi⟩,
    windowAt_replicate n w i c hw hi, List.sum_replicate]
  congr 1
  rw [nsmul_eq_mul]
  field_simp

theorem rollingVarAt_replicate (w n i : ℕ) (c : ℚ) (hw : w ≤ i + 1) (hi : i < n)
    (hw0 : 0 < w) :
    rollingVarAt w (List.replicate n c) i = some 0 := by
  rw [rollingVarAt, if_pos ⟨hw, by simpa using hi⟩,
    windowAt_replicate n w i c hw hi]
  have hm : (List.replicate w c).sum / (w : ℚ) = c := by
    rw [List.sum_replicate, nsmul_eq_mul]
    field_simp
  simp only [hm, sub_self]
  norm_num [List.map_replicate, List.sum_replicate]

theorem calculate_rsi_replicate (n i : ℕ) (c : ℚ) :
    calculate_rsi (List.replicate n c) i = none := by
  rw [calculate_rsi, avgGainAt, avgLossAt, gains_replicate, losses_replicate]
  by_cases hc : 14 ≤ i + 1 ∧ i < n
  · rw [rollingMeanAt_replicate 14 n i 0 hc.1 hc.2 (by norm_num)]
    dsimp only
    rw [if_pos rfl, if_pos rfl]
  · have h : ¬(14 ≤ i + 1 ∧ i < (List.replicate n (0 : ℚ)).length) := by
      simpa using hc
    rw [rollingMeanAt, if_neg h]

theorem sum_weight_getD_replicate (q : ℚ) (n i : ℕ) (hi : i < n) (c : ℚ) :
    ∑ j ∈ Finset.range (i + 1), q ^ j * (List.replicate n c).getD (i - j) 0 =
      (∑ j ∈ Finset.range (i + 1), q ^ j) * c := by
  rw [Finset.sum_mul]
  apply Finset.sum_congr rfl
  intro j _
  congr 1
  rw [List.getD_eq_getElem _ 0 (by simpa using Nat.lt_of_le_of_lt (Nat.sub_le i j) hi),
    List.getElem_replicate]

theorem emaAt_replicate (n i : ℕ) (c : ℚ) (hi : i < n) :
    emaAt (List.replicate n c) i = some c := by
  rw [emaAt, ewmAdjAt, if_pos (by simpa using hi)]
  dsimp only
  congr 1
  rw [sum_weight_getD_replicate _ n i hi c]
  have hpos : (0 : ℚ) < ∑ j ∈ Finset.range (i + 1), (1 - 2 / ((20 : ℕ) + 1 : ℚ)) ^ j := by
    apply Finset.sum_pos
    · intro j _
      apply pow_pos
      norm_num
    · exact ⟨0, Finset.mem_range.mpr (Nat.succ_pos i)⟩
  rw [mul_comm, mul_div_assoc, div_self (ne_of_gt hpos), mul_one]

/-- C4.  On the 30-row constant Close series of value 100: the 20-day EMA
is 100 everywhere, the RSI is undefined everywhere (zero rolling gain and
zero rolling loss give a NaN ratio), and wherever the 20-day window is full
the SMA is 100 and both Bollinger bands collapse onto it. -/
theorem C4_constant_series (i : ℕ) (hi : i < 30) :
    emaAt (List.replicate 30 (100 : ℚ)) i = some 100 ∧
    calculate_rsi (List.replicate 30 (100 : ℚ)) i = none ∧
    (13 ≤ i →
      avgGainAt (List.replicate 30 (100 : ℚ)) i = some 0 ∧
      avgLossAt (List.replicate 30 (100 : ℚ)) i = some 0) ∧
    (19 ≤ i →
      smaAt (List.replicate 30 (100 : ℚ)) i = some 100 ∧
      bbUpperAt (List.replicate 30 (100 : ℚ)) i = some ((100 : ℚ) : ℝ) ∧
      bbLowerAt (List.replicate 30 (100 : ℚ)) i = some ((100 : ℚ) : ℝ)) ∧
    (i < 19 →
      smaAt (List.replicate 30 (100 : ℚ)) i = none ∧
      bbUpperAt (List.replicate 30 (100 : ℚ)) i = none ∧
      bbLowerAt (List.replicate 30 (100 : ℚ)) i = none) := by
  refine ⟨emaAt_replicate 30 i 100 hi, calculate_rsi_replicate 30 i 100,
    fun h13 => ?_, fun h19 => ?_, fun h19 => ?_⟩
  · constructor
    · rw [avgGainAt, gains_replicate]
      exact rollingMeanAt_replicate 14 30 i 0 (by omega) hi (by norm_num)
    · rw [avgLossAt, losses_replicate]
      exact rollingMeanAt_replicate 14 30 i 0 (by omega) hi (by norm_num)
  · have hm : smaAt (List.replicate 30 (100 : ℚ)) i = some 100 :=
      rollingMeanAt_replicate 20 30 i 100 (by omega) hi (by norm_num)
    have hv : rollingVarAt 20 (List.replicate 30 (100 : ℚ)) i = some 0 :=
      rollingVarAt_replicate 20 30 i 100 (by omega) hi (by norm_num)
    have hs : rollingStdAt 20 (List.replicate 30 (100 : ℚ)) i = some 0 := by
      rw [rollingStdAt, hv]
      simp
    refine ⟨hm, ?_, ?_⟩
    · simp only [bbUpperAt, hm, hs]
      norm_num
    · simp only [bbLowerAt, hm, hs]
      norm_num
  · have hc : ¬(20 ≤ i + 1 ∧ i < (List.replicate 30 (100 : ℚ)).length) := by
      simp only [List.length_replicate]
      omega
    have hm : smaAt (List.replicate 30 (100 : ℚ)) i = none := by
      rw [smaAt, rollingMeanAt, if_neg hc]
    have hs : rollingStdAt 20 (List.replicate 30 (100 : ℚ)) i = none := by
      rw [rollingStdAt, rollingVarAt, if_neg hc]
      rfl
    refine ⟨hm, ?_, ?_⟩ <;> simp only [bbUpperAt, bbLowerAt, hm, hs]

/-- Witness for C4 at index 19, where all four overlays are defined. -/
theorem C4_constant_series_witness :
    emaAt (List.replicate 30 (100 : ℚ)) 19 = some 100 ∧
    calculate_rsi (List.replicate 30 (100 : ℚ)) 19 = none ∧
    avgGainAt (List.replicate 30 (100 : ℚ)) 19 = some 0 ∧
    avgLossAt (List.replicate 30 (100 : ℚ)) 19 = some 0 ∧
    smaAt (List.replicate 30 (100 : ℚ)) 19 = some 100 ∧
    bbUpperAt (List.replicate 30 (100 : ℚ)) 19 = some ((100 : ℚ) : ℝ) ∧
    bbLowerAt (List.replicate 30 (100 : ℚ)) 19 = some ((100 : ℚ) : ℝ) := by
  obtain ⟨h1, h2, h3, h4, _⟩ := C4_constant_series 19 (by decide)
  obtain ⟨hg, hl⟩ := h3 (by decide)
  obtain ⟨h5, h6, h7⟩ := h4 (by decide)
  exact ⟨h1, h2, hg, hl, h5, h6, h7⟩

/-! ### C7: VWAP -/

theorem sum_zipWith_mul_le (mx : ℚ) :
    ∀ (c v : List ℚ), c.length = v.length → (∀ x ∈ c, x ≤ mx) →
      (∀ y ∈ v, 0 ≤ y) → (List.zipWith (· * ·) c v).sum ≤ mx * v.sum
  | [], [], _, _, _ => by simp
  | [], _ :: _, h, _, _ => by cases h
  | _ :: _, [], h, _, _ => by cases h
  | x :: c, y :: v, h, hc, hv => by
      rw [List.zipWith_cons_cons, List.sum_cons, List.sum_cons, mul_add]
      have h1 : x * y ≤ mx * y :=
        mul_le_mul_of_nonneg_right (hc x (List.mem_cons_self x c))
          (hv y (List.mem_cons_self y v))
      have h2 := sum_zipWith_mul_le mx c v (by simpa using h)
        (fun a ha => hc a (List.mem_cons_of_mem x ha))
        (fun a ha => hv a (List.mem_cons_of_mem y ha))
      linarith

theorem le_sum_zipWith_mul (mn : ℚ) :
    ∀ (c v : List ℚ), c.length = v.length → (∀ x ∈ c, mn ≤ x) →
      (∀ y ∈ v, 0 ≤ y) → mn * v.sum ≤ (List.zipWith (· * ·) c v).sum
  | [], [], _, _, _ => by simp
  | [], _ :: _, h, _, _ => by cases h
  | _ :: _, [], h, _, _ => by cases h
  | x :: c, y :: v, h, hc, hv => by
      rw [List.zipWith_cons_cons, List.sum_cons, List.sum_cons, mul_add]
      have h1 : mn * y ≤ x * y :=
        mul_le_mul_of_nonneg_right (hc x (List.mem_cons_self x c))
          (hv y (List.mem_cons_self y v))
      have h2 := le_sum_zipWith_mul mn c v (by simpa using h)
        (fun a ha => hc a (List.mem_cons_of_mem x ha))
        (fun a ha => hv a (List.mem_cons_of_mem y ha))
      linarith

/-- C7 (amended with nonnegative volumes).  Wherever the cumulative volume
is nonzero, the VWAP equals cumulative Close×Volume over cumulative
Volume and lies between every lower bound and every upper bound of the
Close values up to that index (hence between their minimum and maximum);
where the cumulative volume is zero the VWAP is undefined. -/
theorem C7_vwap_bounds (close vol : List ℚ) (hlen : vol.length = close.length)
    (hvol : ∀ y ∈ vol, 0 ≤ y) (i : ℕ) (hi : i < close.length) :
    (cumV vol i ≠ 0 →
      ∃ w, vwapAt close vol i = some w ∧ w = cumCV close vol i / cumV vol i ∧
        (∀ b, (∀ x ∈ close.take (i + 1), x ≤ b) → w ≤ b) ∧
        (∀ b, (∀ x ∈ close.take (i + 1), b ≤ x) → b ≤ w)) ∧
    (cumV vol i = 0 → vwapAt close vol i = none) := by
  have hiv : i < vol.length := by omega
  have hVnn : 0 ≤ cumV vol i :=
    List.sum_nonneg (fun y hy => hvol y (List.mem_of_mem_take hy))
  constructor
  · intro hV0
    have hVpos : 0 < cumV vol i := lt_of_le_of_ne hVnn (Ne.symm hV0)
    refine ⟨cumCV close vol i / cumV vol i,
      by rw [vwapAt, if_pos ⟨hi, hiv⟩, if_neg hV0], rfl, ?_, ?_⟩
    · intro b hb
      rw [div_le_iff₀ hVpos]
      rw [cumCV, List.take_zipWith]
      exact sum_zipWith_mul_le b (close.take (i + 1)) (vol.take (i + 1))
        (by simp; omega) hb (fun y hy => hvol y (List.mem_of_mem_take hy))
    · intro b hb
      rw [le_div_iff₀ hVpos]
      rw [cumCV, List.take_zipWith]
      exact le_sum_zipWith_mul b (close.take (i + 1)) (vol.take (i + 1))
        (by simp; omega) hb (fun y hy => hvol y (List.mem_of_mem_take hy))
  · intro hV0
    rw [vwapAt, if_pos ⟨hi, hiv⟩, if_pos hV0]

/-- Witness for C7 at Close `1, 3` and Volume `1, 1`. -/
theorem C7_vwap_bounds_witness :
    ∃ w, vwapAt [1, 3] [1, 1] 1 = some w ∧
      w = cumCV [1, 3] [1, 1] 1 / cumV [1, 1] 1 ∧
      (∀ b, (∀ x ∈ ([1, 3] : List ℚ).take 2, x ≤ b) → w ≤ b) ∧
      (∀ b, (∀ x ∈ ([1, 3] : List ℚ).take 2, b ≤ x) → b ≤ w) :=
  (C7_vwap_bounds [1, 3] [1, 1] (by simp)
      (by intro y hy; simp at hy; subst hy; norm_num)
      1 (by simp)).1
    (by norm_num [cumV])

/-- Counterexample to C7 as stated: with a negative volume the VWAP
escapes the range of the Close values — at Close `1, 2` and Volume
`1, -2` the VWAP at index 1 is 3, above every Close value. -/
theorem C7_counterexample :
    vwapAt [1, 2] [1, -2] 1 = some 3 ∧
    (∀ x ∈ ([1, 2] : List ℚ).take 2, x ≤ 2) ∧ ¬(3 : ℚ) ≤ 2 := by
  refine ⟨by norm_num [vwapAt, cumCV, cumV], ?_, by norm_num⟩
  intro x hx
  simp at hx
  rcases hx with rfl | rfl <;> norm_num

/-! ### C2: the assembled technical-data text -/

theorem ewmUnadjFrom_length (a : ℚ) :
    ∀ (y : ℚ) (l : List ℚ), (ewmUnadjFrom a y l).length = l.length
  | _, [] => rfl
  | y, x :: xs => by
      rw [ewmUnadjFrom]
      simp only [List.length_cons]
      rw [ewmUnadjFrom_length a _ xs]

theorem ewmUnadj_length (s : ℕ) (xs : List ℚ) :
    (ewmUnadj s xs).length = xs.length := by
  cases xs with
  | nil => rfl
  | cons x tl =>
      rw [ewmUnadj]
      simp [ewmUnadjFrom_length]

theorem calculate_macd_length (xs : List ℚ) :
    (calculate_macd xs).1.length = xs.length ∧
    (calculate_macd xs).2.length = xs.length := by
  rw [calculate_macd]
  dsimp only
  rw [ewmUnadj_length, List.length_zipWith, ewmUnadj_length, ewmUnadj_length,
    Nat.min_self]
  exact ⟨rfl, rfl⟩

theorem tail10_length {α : Type} (l : List α) :
    (tail10 l).length = min 10 l.length := by
  simp [tail10]
  omega

theorem rsiLines_length (dates : List String) (xs : List ℚ) :
    (rsiLines dates xs).length = min 10 (min dates.length xs.length) := by
  rw [rsiLines, List.length_map, tail10_length, List.length_zip, rsiSeries,
    List.length_map, List.length_range]

theorem macdLines_length (dates : List String) (xs : List ℚ) :
    (macdLines dates xs).length = min 10 (min dates.length xs.length) := by
  rw [macdLines, List.length_map, tail10_length, List.length_zip, List.length_zip,
    (calculate_macd_length xs).1, (calculate_macd_length xs).2, Nat.min_self]

/-- C2 (amended).  With both RSI and MACD selected, the assembled
technical-data text is the `Recent RSI values` block followed by the
`Recent MACD values` block, and each block has exactly `min 10 n` lines
for an `n`-row series — the last 10 rows of the full-length series, whether
or not their values are defined (undefined RSI rows render as `nan`). -/
theorem C2_tech_data_blocks (sel dates : List String) (xs : List ℚ)
    (hlen : dates.length = xs.length) (hr : "RSI" ∈ sel) (hm : "MACD" ∈ sel) :
    tech_data sel dates xs = rsi_data dates xs ++ macd_data dates xs ∧
    (rsiLines dates xs).length = min 10 xs.length ∧
    (macdLines dates xs).length = min 10 xs.length := by
  refine ⟨by rw [tech_data, if_pos hr, if_pos hm], ?_, ?_⟩
  · rw [rsiLines_length, hlen, Nat.min_self]
  · rw [macdLines_length, hlen, Nat.min_self]

/-- Witness for C2 on a two-row series with both indicators selected. -/
theorem C2_tech_data_blocks_witness :
    tech_data ["RSI", "MACD"] ["d1", "d2"] [1, 2] =
      rsi_data ["d1", "d2"] [1, 2] ++ macd_data ["d1", "d2"] [1, 2] ∧
    (rsiLines ["d1", "d2"] [1, 2]).length = min 10 ([1, 2] : List ℚ).length ∧
    (macdLines ["d1", "d2"] [1, 2]).length = min 10 ([1, 2] : List ℚ).length :=
  C2_tech_data_blocks ["RSI", "MACD"] ["d1", "d2"] [1, 2] rfl
    (by simp) (by simp)

/-- Fifteen date labels, for the counterexample input. -/
def d15 : List String :=
  ["d01", "d02", "d03", "d04", "d05", "d06", "d07", "d08",
   "d09", "d10", "d11", "d12", "d13", "d14", "d15"]

/-- Counterexample to C2 as stated: on a 15-row constant Close series the
RSI series has zero defined points — fewer than 10 — yet the RSI block
still has exactly 10 lines, the undefined ones printed as `nan` rather
than as two-decimal values. -/
theorem C2_counterexample :
    definedCount (rsiSeries (List.replicate 15 (100 : ℚ))) = 0 ∧
    (rsiLines d15 (List.replicate 15 (100 : ℚ))).length = 10 ∧
    (rsiLines d15 (List.replicate 15 (100 : ℚ))).head? = some "\nd06: nan" := by
  have hrs : rsiSeries (List.replicate 15 (100 : ℚ)) =
      List.replicate 15 (none : Option ℚ) := by
    apply List.eq_replicate_iff.mpr
    constructor
    · simp [rsiSeries]
    · intro b hb
      simp only [rsiSeries, List.mem_map] at hb
      obtain ⟨i, _, hbi⟩ := hb
      subst hbi
      exact calculate_rsi_replicate 15 i 100
  refine ⟨?_, ?_, ?_⟩
  · rw [definedCount, hrs]
    simp [List.filterMap_replicate]
  · rw [rsiLines_length]
    norm_num [d15]
  · unfold rsiLines
    rw [hrs]
    rfl

end Stonks
